import Mathlib

/-
Verification of the surface-pool controller in
`src/engine/src/flutter/shell/platform/fuchsia/flutter/vulkan_surface_pool.cc`
(namespace `flutter_runner`, class `VulkanSurfacePool`).

The pool state is embedded shallowly: the C++ member fields become record
fields, `std::vector<std::unique_ptr<VulkanSurface>>` becomes a
`List VulkanSurface`, and the `std::unordered_map<uintptr_t, ...>` of pending
surfaces becomes an association list from keys to surfaces (the map's
operations used by the code — `insert` of a fresh key, `find`, `erase` of a
found iterator — are key-based, so an association list with key lookup is an
exact model).  Tracing macros are pure no-ops except for `TraceStats`, whose
one state effect (resetting the per-period counters) is kept.
-/

set_option autoImplicit false

/-- `SkISize`: an integer width × height, with `==` meaning component-wise
equality (as `SkISize::operator==` does). -/
structure SkISize where
  width : Int
  height : Int
deriving DecidableEq, Repr

/-- Modelled from the spec: `VulkanSurface` (file `vulkan_surface.h/.cc` is not
under `src/`) is the external Surface collaborator.  Only the observables the
pool code reads are kept: `GetSize` (`size`), the creation identifier passed as
`buffer_id` to the constructor (`bufferId`), the memory address of the heap
object, used by `SubmitSurface` as `reinterpret_cast<uintptr_t>(ptr)` (`addr`),
`IsValid` (`valid`), the age counter behind `AdvanceAndGetAge` (`age`; the call
increments it and returns the new value), `IsOversized` (`oversized`),
`HasStableSizeHistory` (`stableSizeHistory`) and `GetAllocationSize`
(`allocationSize`). -/
structure VulkanSurface where
  size : SkISize
  bufferId : Nat
  addr : Nat
  valid : Bool
  age : Nat
  oversized : Bool
  stableSizeHistory : Bool
  allocationSize : Nat
deriving DecidableEq, Repr

/-- Modelled from the spec: the Surface Factory
(`createSurface(size, identifier) → Surface|null`).  In the C++ the factory is
the `VulkanSurface` constructor invoked by `CreateSurface` with the requested
size and the post-incremented `buffer_id_`; allocation failure surfaces as an
absent result or as a surface that reports itself invalid. -/
def Factory : Type := SkISize → Nat → Option VulkanSurface

/-- The pool-controller state: the member fields of `VulkanSurfacePool`.
`kMaxSurfaces` and `kMaxSurfaceAge` live in the header `vulkan_surface_pool.h`
which is not under `src/`; per the spec's design notes they are modelled as
explicit configuration arguments of the operations that read them. -/
structure VulkanSurfacePool where
  available_surfaces_ : List VulkanSurface
  pending_surfaces_ : List (Nat × VulkanSurface)
  buffer_id_ : Nat
  trace_surfaces_created_ : Nat
  trace_surfaces_reused_ : Nat
deriving DecidableEq, Repr

/-- Key lookup in the pending map (`pending_surfaces_.find(key)`). -/
def lookupKey (key : Nat) : List (Nat × VulkanSurface) → Option VulkanSurface
  | [] => none
  | (k, s) :: rest => if k = key then some s else lookupKey key rest

/-- Find-and-erase in the pending map: locate the entry for `key`, return it
together with the map with that entry removed (`find` followed by `erase` of
the found iterator in `RecyclePendingSurface`). -/
def pendingRemove (key : Nat) :
    List (Nat × VulkanSurface) → Option VulkanSurface × List (Nat × VulkanSurface)
  | [] => (none, [])
  | (k, s) :: rest =>
    if k = key then (some s, rest)
    else
      let r := pendingRemove key rest
      (r.1, (k, s) :: r.2)

/-- `std::find_if` followed by `erase` of the found iterator: the first element
satisfying `pred`, together with the list with that element removed; `none`
when no element matches. -/
def extractFirst {α : Type} (pred : α → Bool) : List α → Option (α × List α)
  | [] => none
  | x :: xs =>
    if pred x then some (x, xs)
    else
      match extractFirst pred xs with
      | none => none
      | some (y, ys) => some (y, x :: ys)

/-- The exact-match predicate of `GetCachedOrCreateSurface`'s `find_if` lambda:
`surface->IsValid() && surface->GetSize() == size`. -/
def matchPred (size : SkISize) (s : VulkanSurface) : Bool :=
  s.valid && decide (s.size = size)

/-- The predicate of `AgeAndCollectOldBuffers`'s shrink `find_if` lambda:
`surface->IsOversized() && surface->HasStableSizeHistory()`. -/
def shrinkPred (s : VulkanSurface) : Bool :=
  s.oversized && s.stableSizeHistory

/-- `VulkanSurfacePool::TraceStats` (lines 209–242): emits trace counters (pure
observation) and resets the per-period `trace_surfaces_created_` /
`trace_surfaces_reused_` counters to zero. -/
def TraceStats (p : VulkanSurfacePool) : VulkanSurfacePool :=
  { p with trace_surfaces_created_ := 0, trace_surfaces_reused_ := 0 }

/-- `VulkanSurfacePool::CreateSurface` (lines 95–107): construct a new surface
for `size` with identifier `buffer_id_++`; if the result is absent or reports
itself invalid, return null; otherwise bump `trace_surfaces_created_` and
return it. -/
def CreateSurface (factory : Factory) (size : SkISize) (p : VulkanSurfacePool) :
    Option VulkanSurface × VulkanSurfacePool :=
  let p' := { p with buffer_id_ := p.buffer_id_ + 1 }
  match factory size p.buffer_id_ with
  | none => (none, p')
  | some s =>
    if s.valid then
      (some s, { p' with trace_surfaces_created_ := p'.trace_surfaces_created_ + 1 })
    else (none, p')

/-- `VulkanSurfacePool::GetCachedOrCreateSurface` (lines 48–68): linear scan of
`available_surfaces_` for the first valid exact-size match; on a hit erase it
from the pool and return it, otherwise fall through to `CreateSurface`. -/
def GetCachedOrCreateSurface (factory : Factory) (size : SkISize)
    (p : VulkanSurfacePool) : Option VulkanSurface × VulkanSurfacePool :=
  match extractFirst (matchPred size) p.available_surfaces_ with
  | some (s, rest) => (some s, { p with available_surfaces_ := rest })
  | none => CreateSurface factory size p

/-- `VulkanSurfacePool::AcquireSurface` (lines 31–46): get a cached or fresh
surface, then flush its session acquire/release events
(`FlushSessionAcquireAndReleaseEvents`, an external surface operation modelled
by the boolean outcome `flushOk`); a flush failure discards the surface and
fails the acquisition. -/
def AcquireSurface (factory : Factory) (flushOk : VulkanSurface → Bool)
    (size : SkISize) (p : VulkanSurfacePool) :
    Option VulkanSurface × VulkanSurfacePool :=
  match GetCachedOrCreateSurface factory size p with
  | (none, p') => (none, p')
  | (some s, p') => if flushOk s then (some s, p') else (none, p')

/-- `VulkanSurfacePool::SubmitSurface` (lines 70–93): downcast the producer
surface (null is a no-op), key it by its memory address
(`reinterpret_cast<uintptr_t>(vulkan_surface.get())`), and `insert` into
`pending_surfaces_`; the returned `Bool` is `insert_iterator.second`, i.e.
whether the insertion took place and hence whether `SignalWritesFinished` was
given the recycle callback. -/
def SubmitSurface (p : VulkanSurfacePool) (p_surface : Option VulkanSurface) :
    VulkanSurfacePool × Bool :=
  match p_surface with
  | none => (p, false)
  | some s =>
    match lookupKey s.addr p.pending_surfaces_ with
    | some _ => (p, false)
    | none => ({ p with pending_surfaces_ := (s.addr, s) :: p.pending_surfaces_ }, true)

/-- `VulkanSurfacePool::RecycleSurface` (lines 125–141): an invalid surface is
dropped with no other effect; a valid one is appended to `available_surfaces_`
when the pool is below `kMaxSurfaces`, dropped otherwise, and `TraceStats`
runs. -/
def RecycleSurface (kMaxSurfaces : Nat) (p : VulkanSurfacePool)
    (surface : VulkanSurface) : VulkanSurfacePool :=
  if !surface.valid then p
  else
    TraceStats
      (if p.available_surfaces_.length < kMaxSurfaces then
        { p with available_surfaces_ := p.available_surfaces_ ++ [surface] }
      else p)

/-- `VulkanSurfacePool::RecyclePendingSurface` (lines 109–123): find the key in
`pending_surfaces_`; a miss is a no-op, a hit removes the entry and hands the
surface to `RecycleSurface`. -/
def RecyclePendingSurface (kMaxSurfaces : Nat) (surface_key : Nat)
    (p : VulkanSurfacePool) : VulkanSurfacePool :=
  match pendingRemove surface_key p.pending_surfaces_ with
  | (none, _) => p
  | (some s, rest) =>
    RecycleSurface kMaxSurfaces { p with pending_surfaces_ := rest } s

/-- The `remove_if` filtering pass of `AgeAndCollectOldBuffers` (lines
146–154).  The predicate `!surface->IsValid() || surface->AdvanceAndGetAge() >=
kMaxSurfaceAge` short-circuits: an invalid surface is removed without its age
being advanced; a valid one has its age advanced by one and is removed exactly
when the advanced age reaches `kMaxSurfaceAge`. -/
def ageFilter (kMaxSurfaceAge : Nat) : List VulkanSurface → List VulkanSurface
  | [] => []
  | s :: rest =>
    if !s.valid then ageFilter kMaxSurfaceAge rest
    else
      if kMaxSurfaceAge ≤ s.age + 1 then ageFilter kMaxSurfaceAge rest
      else { s with age := s.age + 1 } :: ageFilter kMaxSurfaceAge rest

/-- `VulkanSurfacePool::AgeAndCollectOldBuffers` (lines 143–180): run the aging
filter, then look for the first remaining surface that is oversized with a
stable size history; if one is found, erase it, synchronously create a
replacement of the same size, and push the replacement back when creation
succeeded; finally `TraceStats`. -/
def AgeAndCollectOldBuffers (factory : Factory) (kMaxSurfaceAge : Nat)
    (p : VulkanSurfacePool) : VulkanSurfacePool :=
  let p1 := { p with available_surfaces_ := ageFilter kMaxSurfaceAge p.available_surfaces_ }
  let p2 :=
    match extractFirst shrinkPred p1.available_surfaces_ with
    | none => p1
    | some (victim, rest) =>
      match CreateSurface factory victim.size { p1 with available_surfaces_ := rest } with
      | (some ns, q) => { q with available_surfaces_ := q.available_surfaces_ ++ [ns] }
      | (none, q) => q
  TraceStats p2

/-- One iteration of `ShrinkToFit`'s recreation loop: create a surface of the
recorded size and append it to the pool when creation succeeded. -/
def shrinkStep (factory : Factory) (q : VulkanSurfacePool) (size : SkISize) :
    VulkanSurfacePool :=
  match CreateSurface factory size q with
  | (some s, q') => { q' with available_surfaces_ := q'.available_surfaces_ ++ [s] }
  | (none, q') => q'

/-- `VulkanSurfacePool::ShrinkToFit` (lines 182–207): reset every oversized
surface in place while recording its logical size (so no replacement exists
while any oversized original is still alive), drop the null slots, then
recreate one surface per recorded size, appending each success; finally
`TraceStats`. -/
def ShrinkToFit (factory : Factory) (p : VulkanSurfacePool) : VulkanSurfacePool :=
  let sizes_to_recreate :=
    (p.available_surfaces_.filter (fun s => s.oversized)).map (fun s => s.size)
  let p1 := { p with available_surfaces_ := p.available_surfaces_.filter (fun s => !s.oversized) }
  TraceStats (sizes_to_recreate.foldl (shrinkStep factory) p1)

/-- Spec-side description of `ShrinkToFit`'s recreation loop: the list of
replacement surfaces produced by creating one surface per recorded size
starting from identifier `id`, keeping exactly the successful creations
(absent or invalid factory results contribute nothing; the identifier is
consumed either way). -/
def recreatedSurfaces (factory : Factory) :
    List SkISize → Nat → List VulkanSurface
  | [], _ => []
  | sz :: rest, id =>
    match factory sz id with
    | some s =>
      if s.valid then s :: recreatedSurfaces factory rest (id + 1)
      else recreatedSurfaces factory rest (id + 1)
    | none => recreatedSurfaces factory rest (id + 1)

/-- `ZX_OK`, the Zircon success status. -/
def ZX_OK : Int := 0

/-- The debug assertion in the `VulkanSurfacePool` constructor (line 26):
`FML_DCHECK(status != ZX_OK)`, where `status` is the result of
`fdio_service_connect("/svc/fuchsia.sysmem.Allocator", ...)`.  The assertion
passes exactly when the connection did NOT succeed. -/
def constructorDcheckPasses (status : Int) : Bool :=
  decide (status ≠ ZX_OK)

/-! ### Concrete fixtures used by the witnesses -/

/-- A total, well-behaved factory: every creation succeeds with a valid,
non-oversized surface of the requested size. -/
def testFactory : Factory := fun sz id =>
  some { size := sz, bufferId := id, addr := 1000 + id, valid := true, age := 0,
         oversized := false, stableSizeHistory := false, allocationSize := 4 }

/-- A factory whose allocations always fail. -/
def noneFactory : Factory := fun _ _ => none

/-- A factory whose surfaces always report themselves invalid. -/
def invalidFactory : Factory := fun sz id =>
  some { size := sz, bufferId := id, addr := 2000 + id, valid := false, age := 0,
         oversized := false, stableSizeHistory := false, allocationSize := 4 }

def wInvalid : VulkanSurface :=
  { size := ⟨8, 8⟩, bufferId := 0, addr := 10, valid := false, age := 0,
    oversized := false, stableSizeHistory := false, allocationSize := 1 }

def wMatch : VulkanSurface :=
  { size := ⟨8, 8⟩, bufferId := 1, addr := 11, valid := true, age := 0,
    oversized := false, stableSizeHistory := false, allocationSize := 1 }

def wOther : VulkanSurface :=
  { size := ⟨4, 4⟩, bufferId := 2, addr := 12, valid := true, age := 0,
    oversized := false, stableSizeHistory := false, allocationSize := 1 }

def wPool : VulkanSurfacePool :=
  { available_surfaces_ := [wInvalid, wMatch, wOther], pending_surfaces_ := [],
    buffer_id_ := 3, trace_surfaces_created_ := 0, trace_surfaces_reused_ := 0 }

def wPool1 : VulkanSurfacePool :=
  { available_surfaces_ := [wMatch], pending_surfaces_ := [],
    buffer_id_ := 3, trace_surfaces_created_ := 0, trace_surfaces_reused_ := 0 }

def wPool2 : VulkanSurfacePool :=
  { available_surfaces_ := [wMatch, wOther], pending_surfaces_ := [],
    buffer_id_ := 3, trace_surfaces_created_ := 0, trace_surfaces_reused_ := 0 }

def cexSurface : VulkanSurface :=
  { size := ⟨1, 1⟩, bufferId := 5, addr := 100, valid := true, age := 0,
    oversized := false, stableSizeHistory := false, allocationSize := 0 }

def emptyPool : VulkanSurfacePool :=
  { available_surfaces_ := [], pending_surfaces_ := [], buffer_id_ := 6,
    trace_surfaces_created_ := 0, trace_surfaces_reused_ := 0 }

def wOversized : VulkanSurface :=
  { size := ⟨16, 16⟩, bufferId := 3, addr := 13, valid := true, age := 0,
    oversized := true, stableSizeHistory := true, allocationSize := 9 }

def wOversized2 : VulkanSurface :=
  { size := ⟨32, 32⟩, bufferId := 4, addr := 14, valid := true, age := 0,
    oversized := true, stableSizeHistory := true, allocationSize := 9 }

def wAgePool : VulkanSurfacePool :=
  { available_surfaces_ := [wOther, wOversized, wOversized2],
    pending_surfaces_ := [], buffer_id_ := 7, trace_surfaces_created_ := 0,
    trace_surfaces_reused_ := 0 }

def wPendingPool : VulkanSurfacePool :=
  { available_surfaces_ := [], pending_surfaces_ := [(100, cexSurface)],
    buffer_id_ := 6, trace_surfaces_created_ := 0, trace_surfaces_reused_ := 0 }

/-! ### Helper lemmas -/

theorem extractFirst_eq_none {α : Type} (pred : α → Bool) (l : List α)
    (h : ∀ x ∈ l, pred x = false) : extractFirst pred l = none := by
  induction l with
  | nil => rfl
  | cons x xs ih =>
    have hx : pred x = false := h x (List.mem_cons_self x xs)
    have hxs : extractFirst pred xs = none :=
      ih (fun y hy => h y (List.mem_cons_of_mem x hy))
    simp [extractFirst, hx, hxs]

theorem extractFirst_of_split {α : Type} (pred : α → Bool) (l₁ : List α) (s : α)
    (l₂ : List α) (h₁ : ∀ x ∈ l₁, pred x = false) (hs : pred s = true) :
    extractFirst pred (l₁ ++ s :: l₂) = some (s, l₁ ++ l₂) := by
  induction l₁ with
  | nil => simp [extractFirst, hs]
  | cons x xs ih =>
    have hx : pred x = false := h₁ x (List.mem_cons_self x xs)
    have hxs := ih (fun y hy => h₁ y (List.mem_cons_of_mem x hy))
    simp [extractFirst, hx, hxs]

theorem extractFirst_some_spec {α : Type} (pred : α → Bool) (l : List α) (s : α)
    (rest : List α) (h : extractFirst pred l = some (s, rest)) :
    pred s = true ∧ rest.length + 1 = l.length := by
  induction l generalizing s rest with
  | nil => simp [extractFirst] at h
  | cons x xs ih =>
    by_cases hx : pred x = true
    · simp [extractFirst, hx] at h
      obtain ⟨h1, h2⟩ := h
      subst h1; subst h2
      exact ⟨hx, by simp⟩
    · rw [Bool.not_eq_true] at hx
      cases heq : extractFirst pred xs with
      | none => simp [extractFirst, hx, heq] at h
      | some yr =>
        obtain ⟨y, ys⟩ := yr
        simp [extractFirst, hx, heq] at h
        obtain ⟨h1, h2⟩ := h
        subst h1; subst h2
        obtain ⟨hp, hl⟩ := ih y ys heq
        exact ⟨hp, by simp [← hl]⟩

theorem lookupKey_eq_none (key : Nat) (l : List (Nat × VulkanSurface))
    (h : key ∉ l.map Prod.fst) : lookupKey key l = none := by
  induction l with
  | nil => rfl
  | cons kv rest ih =>
    obtain ⟨k, s⟩ := kv
    have hk : ¬ k = key := by
      intro hk; exact h (by simp [hk])
    have hrest : key ∉ rest.map Prod.fst := by
      intro hm; exact h (by simp [hm])
    simp [lookupKey, hk, ih hrest]

theorem pendingRemove_fst (key : Nat) (l : List (Nat × VulkanSurface)) :
    (pendingRemove key l).1 = lookupKey key l := by
  induction l with
  | nil => rfl
  | cons kv rest ih =>
    obtain ⟨k, s⟩ := kv
    by_cases hk : k = key <;> simp [pendingRemove, lookupKey, hk, ih]

theorem lookupKey_pendingRemove (key : Nat) (l : List (Nat × VulkanSurface))
    (h : (l.map Prod.fst).Nodup) :
    lookupKey key (pendingRemove key l).2 = none := by
  induction l with
  | nil => rfl
  | cons kv rest ih =>
    obtain ⟨k, s⟩ := kv
    simp only [List.map_cons, List.nodup_cons] at h
    obtain ⟨hk, hrest⟩ := h
    by_cases hkey : k = key
    · subst hkey
      simpa [pendingRemove] using lookupKey_eq_none k rest hk
    · simp [pendingRemove, hkey, lookupKey, ih hrest]

theorem ageFilter_eq (kAge : Nat) (l : List VulkanSurface) :
    ageFilter kAge l =
      (l.filter (fun s => s.valid && decide (s.age + 1 < kAge))).map
        (fun s => { s with age := s.age + 1 }) := by
  induction l with
  | nil => rfl
  | cons s rest ih =>
    by_cases hv : s.valid = true
    · by_cases ha : kAge ≤ s.age + 1
      · have ha' : ¬ (s.age + 1 < kAge) := Nat.not_lt.mpr ha
        simp [ageFilter, hv, ha, ha', ih]
      · have ha' : s.age + 1 < kAge := Nat.lt_of_not_le ha
        simp [ageFilter, hv, ha, ha', ih]
    · rw [Bool.not_eq_true] at hv
      simp [ageFilter, hv, ih]

theorem ageFilter_length_le (kAge : Nat) (l : List VulkanSurface) :
    (ageFilter kAge l).length ≤ l.length := by
  rw [ageFilter_eq]
  simpa using List.length_filter_le _ l

theorem length_filter_add_length_filter_not {α : Type} (p : α → Bool) (l : List α) :
    (l.filter p).length + (l.filter (fun x => !p x)).length = l.length := by
  have h := (List.filter_append_perm p l).length_eq
  simpa [List.length_append] using h

theorem filter_not_append_filter_perm {α : Type} (p : α → Bool) (l : List α) :
    (l.filter (fun x => !p x) ++ l.filter p).Perm l := by
  exact (List.perm_append_comm).trans (List.filter_append_perm p l)

theorem CreateSurface_fst_valid (factory : Factory) (sz : SkISize)
    (p : VulkanSurfacePool) (s : VulkanSurface)
    (h : (CreateSurface factory sz p).1 = some s) : s.valid = true := by
  cases hf : factory sz p.buffer_id_ with
  | none => simp [CreateSurface, hf] at h
  | some t =>
    by_cases hv : t.valid = true
    · simp [CreateSurface, hf, hv] at h
      subst h; exact hv
    · rw [Bool.not_eq_true] at hv
      simp [CreateSurface, hf, hv] at h

theorem CreateSurface_snd_available (factory : Factory) (sz : SkISize)
    (p : VulkanSurfacePool) :
    (CreateSurface factory sz p).2.available_surfaces_ = p.available_surfaces_ := by
  cases hf : factory sz p.buffer_id_ with
  | none => simp [CreateSurface, hf]
  | some t =>
    by_cases hv : t.valid = true
    · simp [CreateSurface, hf, hv]
    · rw [Bool.not_eq_true] at hv
      simp [CreateSurface, hf, hv]

theorem RecycleSurface_pending (kMax : Nat) (p : VulkanSurfacePool)
    (s : VulkanSurface) :
    (RecycleSurface kMax p s).pending_surfaces_ = p.pending_surfaces_ := by
  by_cases hv : s.valid = true
  · by_cases hr : p.available_surfaces_.length < kMax <;>
      simp [RecycleSurface, TraceStats, hv, hr]
  · rw [Bool.not_eq_true] at hv
    simp [RecycleSurface, hv]

theorem RecycleSurface_length_le (kMax : Nat) (p : VulkanSurfacePool)
    (s : VulkanSurface) (h : p.available_surfaces_.length ≤ kMax) :
    (RecycleSurface kMax p s).available_surfaces_.length ≤ kMax := by
  by_cases hv : s.valid = true
  · by_cases hr : p.available_surfaces_.length < kMax
    · simp [RecycleSurface, TraceStats, hv, hr]
      omega
    · simpa [RecycleSurface, TraceStats, hv, hr] using h
  · rw [Bool.not_eq_true] at hv
    simpa [RecycleSurface, hv] using h

theorem foldl_shrinkStep_available (factory : Factory) (sizes : List SkISize)
    (q : VulkanSurfacePool) :
    (sizes.foldl (shrinkStep factory) q).available_surfaces_ =
      q.available_surfaces_ ++ recreatedSurfaces factory sizes q.buffer_id_ := by
  induction sizes generalizing q with
  | nil => simp [recreatedSurfaces]
  | cons sz rest ih =>
    simp only [List.foldl_cons]
    cases hf : factory sz q.buffer_id_ with
    | none =>
      have hstep : shrinkStep factory q sz = { q with buffer_id_ := q.buffer_id_ + 1 } := by
        simp [shrinkStep, CreateSurface, hf]
      rw [hstep, ih]
      simp [recreatedSurfaces, hf]
    | some s =>
      by_cases hv : s.valid = true
      · have hstep : shrinkStep factory q sz =
            { q with buffer_id_ := q.buffer_id_ + 1,
                     trace_surfaces_created_ := q.trace_surfaces_created_ + 1,
                     available_surfaces_ := q.available_surfaces_ ++ [s] } := by
          simp [shrinkStep, CreateSurface, hf, hv]
        rw [hstep, ih]
        simp [recreatedSurfaces, hf, hv]
      · rw [Bool.not_eq_true] at hv
        have hstep : shrinkStep factory q sz = { q with buffer_id_ := q.buffer_id_ + 1 } := by
          simp [shrinkStep, CreateSurface, hf, hv]
        rw [hstep, ih]
        simp [recreatedSurfaces, hf, hv]

theorem recreatedSurfaces_length_le (factory : Factory) (sizes : List SkISize)
    (id : Nat) : (recreatedSurfaces factory sizes id).length ≤ sizes.length := by
  induction sizes generalizing id with
  | nil => simp [recreatedSurfaces]
  | cons sz rest ih =>
    cases hf : factory sz id with
    | none =>
      simp only [recreatedSurfaces, hf, List.length_cons]
      exact Nat.le_succ_of_le (ih _)
    | some s =>
      by_cases hv : s.valid = true
      · simp only [recreatedSurfaces, hf, hv, if_true, List.length_cons]
        exact Nat.succ_le_succ (ih _)
      · rw [Bool.not_eq_true] at hv
        simp only [recreatedSurfaces, hf, hv, Bool.false_eq_true, if_false,
          List.length_cons]
        exact Nat.le_succ_of_le (ih _)

theorem recreatedSurfaces_map_size (factory : Factory)
    (hfac : ∀ sz id s, factory sz id = some s → s.valid = true ∧ s.size = sz)
    (hne : ∀ sz id, factory sz id ≠ none)
    (sizes : List SkISize) (id : Nat) :
    (recreatedSurfaces factory sizes id).map (fun s => s.size) = sizes := by
  induction sizes generalizing id with
  | nil => rfl
  | cons sz rest ih =>
    cases hf : factory sz id with
    | none => exact absurd hf (hne sz id)
    | some s =>
      obtain ⟨hv, hs⟩ := hfac sz id s hf
      simp [recreatedSurfaces, hf, hv, hs, ih]

theorem GetCached_fst_valid (factory : Factory) (sz : SkISize)
    (p : VulkanSurfacePool) (s : VulkanSurface)
    (h : (GetCachedOrCreateSurface factory sz p).1 = some s) : s.valid = true := by
  cases hx : extractFirst (matchPred sz) p.available_surfaces_ with
  | some sr =>
    obtain ⟨t, rest⟩ := sr
    simp [GetCachedOrCreateSurface, hx] at h
    subst h
    have hp := (extractFirst_some_spec _ _ _ _ hx).1
    simp [matchPred] at hp
    exact hp.1
  | none =>
    simp [GetCachedOrCreateSurface, hx] at h
    exact CreateSurface_fst_valid factory sz p s h

/-! ### Claim theorems -/

/-- C1: `AcquireSurface`/`GetCachedOrCreateSurface` scans the available pool in
order; when a valid surface of exactly the requested size exists, the first
such surface is removed and returned with every other entry unchanged; when no
such surface exists, the result is that of `CreateSurface` with the pool
untouched by the scan; and a returned surface is never invalid. -/
theorem acquire_exact_match_reuse_or_create (factory : Factory) (sz : SkISize)
    (p : VulkanSurfacePool) :
    ((∀ x ∈ p.available_surfaces_, matchPred sz x = false) →
        GetCachedOrCreateSurface factory sz p = CreateSurface factory sz p)
  ∧ (∀ l₁ s l₂, p.available_surfaces_ = l₁ ++ s :: l₂ →
        (∀ x ∈ l₁, matchPred sz x = false) → matchPred sz s = true →
        GetCachedOrCreateSurface factory sz p =
          (some s, { p with available_surfaces_ := l₁ ++ l₂ }))
  ∧ (∀ s p', GetCachedOrCreateSurface factory sz p = (some s, p') → s.valid = true)
  ∧ (∀ fOk s p', AcquireSurface factory fOk sz p = (some s, p') → s.valid = true) := by
  refine ⟨?_, ?_, ?_, ?_⟩
  · intro h
    simp [GetCachedOrCreateSurface, extractFirst_eq_none _ _ h]
  · intro l₁ s l₂ hsplit h₁ hs
    simp [GetCachedOrCreateSurface, hsplit, extractFirst_of_split _ _ _ _ h₁ hs]
  · intro s p' h
    exact GetCached_fst_valid factory sz p s (by rw [h])
  · intro fOk s p' h
    rcases hg : GetCachedOrCreateSurface factory sz p with ⟨o, q⟩
    cases o with
    | none => simp [AcquireSurface, hg] at h
    | some t =>
      by_cases hf : fOk t = true
      · simp [AcquireSurface, hg, hf] at h
        obtain ⟨h1, _⟩ := h
        subst h1
        exact GetCached_fst_valid factory sz p t (by rw [hg])
      · rw [Bool.not_eq_true] at hf
        simp [AcquireSurface, hg, hf] at h

theorem acquire_exact_match_reuse_or_create_witness :
    GetCachedOrCreateSurface testFactory ⟨8, 8⟩ wPool =
      (some wMatch, { wPool with available_surfaces_ := [wInvalid, wOther] }) ∧
    GetCachedOrCreateSurface testFactory ⟨2, 2⟩ wPool =
      CreateSurface testFactory ⟨2, 2⟩ wPool := by
  constructor
  · exact (acquire_exact_match_reuse_or_create testFactory ⟨8, 8⟩ wPool).2.1
      [wInvalid] wMatch [wOther] rfl (by decide) (by decide)
  · exact (acquire_exact_match_reuse_or_create testFactory ⟨2, 2⟩ wPool).1
      (by decide)

/-- C2 counterexample: `SubmitSurface` keys the pending map by the surface's
memory address (`reinterpret_cast<uintptr_t>` of the pointer), not by the
creation identifier.  For a surface with identifier 5 living at address 100,
the submitted entry is found under key 100 and there is no entry under key 5,
refuting the claim that the pending set is keyed by the identifier. -/
theorem submit_key_is_address_not_identifier :
    lookupKey cexSurface.bufferId
        (SubmitSurface emptyPool (some cexSurface)).1.pending_surfaces_ = none ∧
    lookupKey cexSurface.addr
        (SubmitSurface emptyPool (some cexSurface)).1.pending_surfaces_ =
      some cexSurface := by decide

/-- C2 (amended): `SubmitSurface` computes a stable identity key for the
surface — its memory address, not its creation identifier — and inserts the
surface into the pending set under that key; a duplicate submit for the same
key is a no-op beyond the first, and the writes-finished callback (the
returned flag) is registered only on the first successful insertion. -/
theorem submit_pending_keyed_by_address_idempotent (p : VulkanSurfacePool)
    (s : VulkanSurface) :
    (lookupKey s.addr p.pending_surfaces_ = none →
        SubmitSurface p (some s) =
          ({ p with pending_surfaces_ := (s.addr, s) :: p.pending_surfaces_ }, true))
  ∧ (∀ t, lookupKey s.addr p.pending_surfaces_ = some t →
        SubmitSurface p (some s) = (p, false))
  ∧ SubmitSurface (SubmitSurface p (some s)).1 (some s) =
      ((SubmitSurface p (some s)).1, false) := by
  refine ⟨?_, ?_, ?_⟩
  · intro h
    simp [SubmitSurface, h]
  · intro t h
    simp [SubmitSurface, h]
  · cases h : lookupKey s.addr p.pending_surfaces_ with
    | none => simp [SubmitSurface, h, lookupKey]
    | some t => simp [SubmitSurface, h]

theorem submit_pending_keyed_by_address_idempotent_witness :
    SubmitSurface emptyPool (some cexSurface) =
      ({ emptyPool with pending_surfaces_ := [(cexSurface.addr, cexSurface)] },
        true) ∧
    SubmitSurface (SubmitSurface emptyPool (some cexSurface)).1 (some cexSurface) =
      ((SubmitSurface emptyPool (some cexSurface)).1, false) := by
  constructor
  · exact (submit_pending_keyed_by_address_idempotent emptyPool cexSurface).1 rfl
  · exact (submit_pending_keyed_by_address_idempotent emptyPool cexSurface).2.2

/-- C3: `RecycleSurface` drops an invalid surface with the pool (indeed the
whole state) unchanged; a valid surface is appended when the available pool is
below `kMaxSurfaces`, and dropped with the pool contents unchanged (no eviction
of the oldest entry) when the pool is full. -/
theorem recycle_invalid_dropped_capacity_respected (kMax : Nat)
    (p : VulkanSurfacePool) (s : VulkanSurface) :
    (s.valid = false → RecycleSurface kMax p s = p)
  ∧ (s.valid = true → p.available_surfaces_.length < kMax →
        (RecycleSurface kMax p s).available_surfaces_ =
          p.available_surfaces_ ++ [s])
  ∧ (s.valid = true → kMax ≤ p.available_surfaces_.length →
        (RecycleSurface kMax p s).available_surfaces_ = p.available_surfaces_) := by
  refine ⟨?_, ?_, ?_⟩
  · intro h
    simp [RecycleSurface, h]
  · intro hv hr
    simp [RecycleSurface, TraceStats, hv, hr]
  · intro hv hr
    simp [RecycleSurface, TraceStats, hv, Nat.not_lt.mpr hr]

theorem recycle_invalid_dropped_capacity_respected_witness :
    RecycleSurface 2 wPool2 wInvalid = wPool2 ∧
    (RecycleSurface 2 wPool1 wOther).available_surfaces_ = [wMatch, wOther] ∧
    (RecycleSurface 2 wPool2 wOther).available_surfaces_ =
      wPool2.available_surfaces_ := by
  refine ⟨?_, ?_, ?_⟩
  · exact (recycle_invalid_dropped_capacity_respected 2 wPool2 wInvalid).1 rfl
  · exact (recycle_invalid_dropped_capacity_respected 2 wPool1 wOther).2.1 rfl
      (by decide)
  · exact (recycle_invalid_dropped_capacity_respected 2 wPool2 wOther).2.2 rfl
      (by decide)

/-- C10: the constructor's debug assertion `FML_DCHECK(status != ZX_OK)` passes
exactly when the connection to the sysmem allocator service did NOT succeed; in
particular it is violated whenever the connection returns `ZX_OK`. -/
theorem constructor_dcheck_requires_connection_failure :
    constructorDcheckPasses ZX_OK = false ∧
    ∀ status : Int, constructorDcheckPasses status = true ↔ status ≠ ZX_OK := by
  constructor
  · decide
  · intro status
    simp [constructorDcheckPasses]

theorem testFactory_spec :
    ∀ sz id s, testFactory sz id = some s → s.valid = true ∧ s.size = sz := by
  intro sz id s h
  simp only [testFactory, Option.some.injEq] at h
  subst h
  exact ⟨rfl, rfl⟩

theorem testFactory_ne_none : ∀ sz id, testFactory sz id ≠ none := by
  intro sz id h
  simp [testFactory] at h

theorem RecyclePending_of_none (kMax key : Nat) (p : VulkanSurfacePool)
    (h : lookupKey key p.pending_surfaces_ = none) :
    RecyclePendingSurface kMax key p = p := by
  rcases hpr : pendingRemove key p.pending_surfaces_ with ⟨o, rest⟩
  have hf : o = none := by
    have := pendingRemove_fst key p.pending_surfaces_
    rw [hpr, h] at this
    exact this
  subst hf
  simp [RecyclePendingSurface, hpr]

theorem RecyclePending_of_some (kMax key : Nat) (p : VulkanSurfacePool)
    (s : VulkanSurface) (h : lookupKey key p.pending_surfaces_ = some s) :
    RecyclePendingSurface kMax key p =
      RecycleSurface kMax
        { p with pending_surfaces_ := (pendingRemove key p.pending_surfaces_).2 }
        s := by
  rcases hpr : pendingRemove key p.pending_surfaces_ with ⟨o, rest⟩
  have hf : o = some s := by
    have := pendingRemove_fst key p.pending_surfaces_
    rw [hpr, h] at this
    exact this
  subst hf
  simp [RecyclePendingSurface, hpr]

/-- C8: `RecyclePendingSurface` removes the entry for the key from the pending
set and recycles exactly the removed surface; a missing key (e.g. an already
removed entry) is a no-op on the whole state; hence, when pending keys are
distinct (as they are, being insert-if-absent keys), firing the completion
callback twice for the same key recycles only once. -/
theorem recycle_pending_idempotent (kMax key : Nat) (p : VulkanSurfacePool) :
    (lookupKey key p.pending_surfaces_ = none →
        RecyclePendingSurface kMax key p = p)
  ∧ (∀ s, lookupKey key p.pending_surfaces_ = some s →
        RecyclePendingSurface kMax key p =
          RecycleSurface kMax
            { p with
                pending_surfaces_ := (pendingRemove key p.pending_surfaces_).2 }
            s)
  ∧ ((p.pending_surfaces_.map Prod.fst).Nodup →
        RecyclePendingSurface kMax key (RecyclePendingSurface kMax key p) =
          RecyclePendingSurface kMax key p) := by
  refine ⟨RecyclePending_of_none kMax key p, RecyclePending_of_some kMax key p, ?_⟩
  intro hnd
  cases hl : lookupKey key p.pending_surfaces_ with
  | none =>
    rw [RecyclePending_of_none kMax key p hl, RecyclePending_of_none kMax key p hl]
  | some s =>
    rw [RecyclePending_of_some kMax key p s hl]
    apply RecyclePending_of_none
    rw [RecycleSurface_pending]
    exact lookupKey_pendingRemove key p.pending_surfaces_ hnd

theorem recycle_pending_idempotent_witness :
    RecyclePendingSurface 12 7 wPendingPool = wPendingPool ∧
    RecyclePendingSurface 12 100 (RecyclePendingSurface 12 100 wPendingPool) =
      RecyclePendingSurface 12 100 wPendingPool := by
  constructor
  · exact (recycle_pending_idempotent 12 7 wPendingPool).1 (by decide)
  · exact (recycle_pending_idempotent 12 100 wPendingPool).2.2 (by decide)

/-- C5: the aging/filtering pass of `AgeAndCollectOldBuffers` keeps exactly the
surfaces that are valid and whose advanced age is still below `kMaxSurfaceAge`,
each with its age incremented by exactly one, and removes every surface that is
invalid or whose advanced age reached the threshold; every survivor is valid
and below the threshold. -/
theorem age_filter_advances_and_evicts (kAge : Nat) (l : List VulkanSurface) :
    ageFilter kAge l =
      (l.filter (fun s => s.valid && decide (s.age + 1 < kAge))).map
        (fun s => { s with age := s.age + 1 }) ∧
    ∀ s ∈ ageFilter kAge l, s.valid = true ∧ s.age < kAge := by
  refine ⟨ageFilter_eq kAge l, ?_⟩
  intro s hs
  rw [ageFilter_eq] at hs
  simp only [List.mem_map, List.mem_filter] at hs
  obtain ⟨t, ⟨ht, hcond⟩, rfl⟩ := hs
  simp only [Bool.and_eq_true, decide_eq_true_eq] at hcond
  exact ⟨hcond.1, hcond.2⟩

theorem age_filter_advances_and_evicts_witness :
    ageFilter 3 [wMatch, wInvalid] = [{ wMatch with age := 1 }] ∧
    ({ wMatch with age := 1 }).valid = true ∧ ({ wMatch with age := 1 }).age < 3 := by
  constructor
  · exact (age_filter_advances_and_evicts 3 [wMatch, wInvalid]).1.trans (by decide)
  · exact (age_filter_advances_and_evicts 3 [wMatch, wInvalid]).2 _ (by decide)

/-- C9: an acquisition that reuses a pooled surface changes neither statistics
counter; a creation that succeeds increments `trace_surfaces_created_` by
exactly one and leaves `trace_surfaces_reused_` alone; a failed creation
(absent factory result or post-creation invalidity) increments no counter (the
state changes only by the consumed identifier). -/
theorem statistics_counter_on_create_and_reuse (factory : Factory) (sz : SkISize)
    (p : VulkanSurfacePool) :
    (∀ s rest, extractFirst (matchPred sz) p.available_surfaces_ = some (s, rest) →
        (GetCachedOrCreateSurface factory sz p).2.trace_surfaces_created_ =
            p.trace_surfaces_created_ ∧
          (GetCachedOrCreateSurface factory sz p).2.trace_surfaces_reused_ =
            p.trace_surfaces_reused_)
  ∧ (∀ s, factory sz p.buffer_id_ = some s → s.valid = true →
        (CreateSurface factory sz p).2.trace_surfaces_created_ =
            p.trace_surfaces_created_ + 1 ∧
          (CreateSurface factory sz p).2.trace_surfaces_reused_ =
            p.trace_surfaces_reused_)
  ∧ (factory sz p.buffer_id_ = none →
        (CreateSurface factory sz p).2 = { p with buffer_id_ := p.buffer_id_ + 1 })
  ∧ (∀ s, factory sz p.buffer_id_ = some s → s.valid = false →
        (CreateSurface factory sz p).2 =
          { p with buffer_id_ := p.buffer_id_ + 1 }) := by
  refine ⟨?_, ?_, ?_, ?_⟩
  · intro s rest h
    simp [GetCachedOrCreateSurface, h]
  · intro s hf hv
    simp [CreateSurface, hf, hv]
  · intro hf
    simp [CreateSurface, hf]
  · intro s hf hv
    simp [CreateSurface, hf, hv]

theorem statistics_counter_on_create_and_reuse_witness :
    ((GetCachedOrCreateSurface testFactory ⟨8, 8⟩ wPool).2.trace_surfaces_created_ = 0 ∧
      (GetCachedOrCreateSurface testFactory ⟨8, 8⟩ wPool).2.trace_surfaces_reused_ = 0) ∧
    ((CreateSurface testFactory ⟨2, 2⟩ wPool).2.trace_surfaces_created_ = 1 ∧
      (CreateSurface testFactory ⟨2, 2⟩ wPool).2.trace_surfaces_reused_ = 0) ∧
    (CreateSurface noneFactory ⟨2, 2⟩ wPool).2 = { wPool with buffer_id_ := 4 } ∧
    (CreateSurface invalidFactory ⟨2, 2⟩ wPool).2 =
      { wPool with buffer_id_ := 4 } := by
  refine ⟨?_, ?_, ?_, ?_⟩
  · exact (statistics_counter_on_create_and_reuse testFactory ⟨8, 8⟩ wPool).1
      wMatch [wInvalid, wOther] (by decide)
  · exact (statistics_counter_on_create_and_reuse testFactory ⟨2, 2⟩ wPool).2.1
      _ rfl rfl
  · exact (statistics_counter_on_create_and_reuse noneFactory ⟨2, 2⟩ wPool).2.2.1
      rfl
  · exact (statistics_counter_on_create_and_reuse invalidFactory ⟨2, 2⟩ wPool).2.2.2
      _ rfl rfl

theorem ShrinkToFit_available (factory : Factory) (p : VulkanSurfacePool) :
    (ShrinkToFit factory p).available_surfaces_ =
      p.available_surfaces_.filter (fun s => !s.oversized) ++
        recreatedSurfaces factory
          ((p.available_surfaces_.filter (fun s => s.oversized)).map
            (fun s => s.size))
          p.buffer_id_ := by
  simp only [ShrinkToFit, TraceStats]
  rw [foldl_shrinkStep_available]

theorem ShrinkToFit_length_le (factory : Factory) (p : VulkanSurfacePool) :
    (ShrinkToFit factory p).available_surfaces_.length ≤
      p.available_surfaces_.length := by
  rw [ShrinkToFit_available, List.length_append]
  have h1 := recreatedSurfaces_length_le factory
    ((p.available_surfaces_.filter (fun s => s.oversized)).map (fun s => s.size))
    p.buffer_id_
  have h2 : ((p.available_surfaces_.filter (fun s => s.oversized)).map
      (fun s => s.size)).length =
      (p.available_surfaces_.filter (fun s => s.oversized)).length := by
    simp
  have hpart : (p.available_surfaces_.filter (fun s => s.oversized)).length +
      (p.available_surfaces_.filter (fun s => !s.oversized)).length =
      p.available_surfaces_.length := by
    simpa using
      length_filter_add_length_filter_not (fun s : VulkanSurface => s.oversized)
        p.available_surfaces_
  omega

theorem GetCached_length_le (factory : Factory) (sz : SkISize)
    (p : VulkanSurfacePool) :
    (GetCachedOrCreateSurface factory sz p).2.available_surfaces_.length ≤
      p.available_surfaces_.length := by
  cases hx : extractFirst (matchPred sz) p.available_surfaces_ with
  | none =>
    simp [GetCachedOrCreateSurface, hx, CreateSurface_snd_available]
  | some sr =>
    obtain ⟨t, rest⟩ := sr
    have := (extractFirst_some_spec _ _ _ _ hx).2
    simp only [GetCachedOrCreateSurface, hx]
    omega

theorem Acquire_snd_avail (factory : Factory) (fOk : VulkanSurface → Bool)
    (sz : SkISize) (p : VulkanSurfacePool) :
    (AcquireSurface factory fOk sz p).2 = (GetCachedOrCreateSurface factory sz p).2 := by
  rcases hg : GetCachedOrCreateSurface factory sz p with ⟨o, q⟩
  cases o with
  | none => simp [AcquireSurface, hg]
  | some t => by_cases hf : fOk t = true <;> simp [AcquireSurface, hg, hf]

theorem Submit_fst_available (p : VulkanSurfacePool) (os : Option VulkanSurface) :
    (SubmitSurface p os).1.available_surfaces_ = p.available_surfaces_ := by
  cases os with
  | none => rfl
  | some s => cases h : lookupKey s.addr p.pending_surfaces_ <;> simp [SubmitSurface, h]

theorem AgeAndCollect_length_le (factory : Factory) (kAge : Nat)
    (p : VulkanSurfacePool) :
    (AgeAndCollectOldBuffers factory kAge p).available_surfaces_.length ≤
      p.available_surfaces_.length := by
  have hfilter := ageFilter_length_le kAge p.available_surfaces_
  cases hx : extractFirst shrinkPred (ageFilter kAge p.available_surfaces_) with
  | none =>
    simp only [AgeAndCollectOldBuffers, TraceStats, hx]
    exact hfilter
  | some vr =>
    obtain ⟨v, rest⟩ := vr
    have hlen := (extractFirst_some_spec _ _ _ _ hx).2
    cases hf : factory v.size p.buffer_id_ with
    | none =>
      simp only [AgeAndCollectOldBuffers, TraceStats, hx, CreateSurface, hf]
      omega
    | some ns =>
      by_cases hval : ns.valid = true
      · simp only [AgeAndCollectOldBuffers, TraceStats, hx, CreateSurface, hf, hval,
          if_true, List.length_append, List.length_cons, List.length_nil]
        omega
      · rw [Bool.not_eq_true] at hval
        simp only [AgeAndCollectOldBuffers, TraceStats, hx, CreateSurface, hf, hval,
          Bool.false_eq_true, if_false]
        omega

theorem RecyclePending_length_le (kMax key : Nat) (p : VulkanSurfacePool)
    (h : p.available_surfaces_.length ≤ kMax) :
    (RecyclePendingSurface kMax key p).available_surfaces_.length ≤ kMax := by
  rcases hpr : pendingRemove key p.pending_surfaces_ with ⟨o, rest⟩
  cases o with
  | none => simpa [RecyclePendingSurface, hpr] using h
  | some s =>
    simp only [RecyclePendingSurface, hpr]
    exact RecycleSurface_length_le kMax _ s h

/-- C4: every pool-controller operation preserves the capacity bound on the
available pool: starting from at most `kMaxSurfaces` cached surfaces, each of
acquire, cached-or-create, create, submit, recycle-pending, recycle,
age-and-collect, shrink-to-fit and the statistics report leaves at most
`kMaxSurfaces` cached surfaces. -/
theorem available_pool_capacity_invariant (kMax kAge : Nat) (factory : Factory)
    (fOk : VulkanSurface → Bool) (sz : SkISize) (s : VulkanSurface)
    (os : Option VulkanSurface) (key : Nat) (p : VulkanSurfacePool)
    (h : p.available_surfaces_.length ≤ kMax) :
    (AcquireSurface factory fOk sz p).2.available_surfaces_.length ≤ kMax
  ∧ (GetCachedOrCreateSurface factory sz p).2.available_surfaces_.length ≤ kMax
  ∧ (CreateSurface factory sz p).2.available_surfaces_.length ≤ kMax
  ∧ (SubmitSurface p os).1.available_surfaces_.length ≤ kMax
  ∧ (RecyclePendingSurface kMax key p).available_surfaces_.length ≤ kMax
  ∧ (RecycleSurface kMax p s).available_surfaces_.length ≤ kMax
  ∧ (AgeAndCollectOldBuffers factory kAge p).available_surfaces_.length ≤ kMax
  ∧ (ShrinkToFit factory p).available_surfaces_.length ≤ kMax
  ∧ (TraceStats p).available_surfaces_.length ≤ kMax := by
  refine ⟨?_, ?_, ?_, ?_, ?_, ?_, ?_, ?_, ?_⟩
  · rw [Acquire_snd_avail]
    exact le_trans (GetCached_length_le factory sz p) h
  · exact le_trans (GetCached_length_le factory sz p) h
  · rw [CreateSurface_snd_available]
    exact h
  · rw [Submit_fst_available]
    exact h
  · exact RecyclePending_length_le kMax key p h
  · exact RecycleSurface_length_le kMax p s h
  · exact le_trans (AgeAndCollect_length_le factory kAge p) h
  · exact le_trans (ShrinkToFit_length_le factory p) h
  · exact h

theorem available_pool_capacity_invariant_witness :
    (AcquireSurface testFactory (fun _ => true) ⟨8, 8⟩ wPool).2.available_surfaces_.length ≤ 3
  ∧ (GetCachedOrCreateSurface testFactory ⟨8, 8⟩ wPool).2.available_surfaces_.length ≤ 3
  ∧ (CreateSurface testFactory ⟨8, 8⟩ wPool).2.available_surfaces_.length ≤ 3
  ∧ (SubmitSurface wPool (some cexSurface)).1.available_surfaces_.length ≤ 3
  ∧ (RecyclePendingSurface 3 0 wPool).available_surfaces_.length ≤ 3
  ∧ (RecycleSurface 3 wPool wOther).available_surfaces_.length ≤ 3
  ∧ (AgeAndCollectOldBuffers testFactory 2 wPool).available_surfaces_.length ≤ 3
  ∧ (ShrinkToFit testFactory wPool).available_surfaces_.length ≤ 3
  ∧ (TraceStats wPool).available_surfaces_.length ≤ 3 :=
  available_pool_capacity_invariant 3 2 testFactory (fun _ => true) ⟨8, 8⟩ wOther
    (some cexSurface) 0 wPool (by decide)

/-- C6: after the filtering pass, `AgeAndCollectOldBuffers` replaces at most
one surface: if no remaining surface is oversized with a stable size history
the pool is left as filtered; otherwise the first such surface is removed, a
replacement of the same logical size is created synchronously, and the
replacement is appended exactly when creation succeeded — a failed creation
leaves the pool one surface smaller with no retry.  The final pool never holds
more surfaces than the filtering pass left. -/
theorem age_and_collect_replaces_at_most_one (factory : Factory) (kAge : Nat)
    (p : VulkanSurfacePool) :
    ((∀ x ∈ ageFilter kAge p.available_surfaces_, shrinkPred x = false) →
        (AgeAndCollectOldBuffers factory kAge p).available_surfaces_ =
          ageFilter kAge p.available_surfaces_)
  ∧ (∀ l₁ v l₂, ageFilter kAge p.available_surfaces_ = l₁ ++ v :: l₂ →
        (∀ x ∈ l₁, shrinkPred x = false) → shrinkPred v = true →
        (∀ ns, factory v.size p.buffer_id_ = some ns → ns.valid = true →
            (AgeAndCollectOldBuffers factory kAge p).available_surfaces_ =
              (l₁ ++ l₂) ++ [ns])
        ∧ ((factory v.size p.buffer_id_ = none ∨
              ∃ ns, factory v.size p.buffer_id_ = some ns ∧ ns.valid = false) →
            (AgeAndCollectOldBuffers factory kAge p).available_surfaces_ =
              l₁ ++ l₂))
  ∧ (AgeAndCollectOldBuffers factory kAge p).available_surfaces_.length ≤
      (ageFilter kAge p.available_surfaces_).length := by
  refine ⟨?_, ?_, ?_⟩
  · intro h
    simp [AgeAndCollectOldBuffers, TraceStats, extractFirst_eq_none _ _ h]
  · intro l₁ v l₂ hsplit h₁ hv
    have hex := extractFirst_of_split shrinkPred l₁ v l₂ h₁ hv
    constructor
    · intro ns hf hval
      simp [AgeAndCollectOldBuffers, TraceStats, hsplit, hex, CreateSurface, hf,
        hval]
    · intro hfail
      rcases hfail with hf | ⟨ns, hf, hval⟩
      · simp [AgeAndCollectOldBuffers, TraceStats, hsplit, hex, CreateSurface, hf]
      · simp [AgeAndCollectOldBuffers, TraceStats, hsplit, hex, CreateSurface, hf,
          hval]
  · cases hx : extractFirst shrinkPred (ageFilter kAge p.available_surfaces_) with
    | none => simp [AgeAndCollectOldBuffers, TraceStats, hx]
    | some vr =>
      obtain ⟨v, rest⟩ := vr
      have hlen := (extractFirst_some_spec _ _ _ _ hx).2
      cases hf : factory v.size p.buffer_id_ with
      | none =>
        simp only [AgeAndCollectOldBuffers, TraceStats, hx, CreateSurface, hf]
        omega
      | some ns =>
        by_cases hval : ns.valid = true
        · simp only [AgeAndCollectOldBuffers, TraceStats, hx, CreateSurface, hf,
            hval, if_true, List.length_append, List.length_cons, List.length_nil]
          omega
        · rw [Bool.not_eq_true] at hval
          simp only [AgeAndCollectOldBuffers, TraceStats, hx, CreateSurface, hf,
            hval, Bool.false_eq_true, if_false]
          omega

theorem age_and_collect_replaces_at_most_one_witness :
    (AgeAndCollectOldBuffers testFactory 3 wAgePool).available_surfaces_ =
      [{ wOther with age := 1 }, { wOversized2 with age := 1 },
        { size := ⟨16, 16⟩, bufferId := 7, addr := 1007, valid := true, age := 0,
          oversized := false, stableSizeHistory := false, allocationSize := 4 }] :=
  ((age_and_collect_replaces_at_most_one testFactory 3 wAgePool).2.1
      [{ wOther with age := 1 }] { wOversized with age := 1 }
      [{ wOversized2 with age := 1 }] (by decide) (by decide) (by decide)).1
    _ rfl rfl

/-- C7: `ShrinkToFit` leaves the non-oversized surfaces untouched (in order),
destroys every oversized surface recording its logical size, and only then
creates exactly one replacement per recorded size, appending each success
(failures just lower occupancy); when every creation succeeds with the
requested size, the pool keeps its count and its multiset of logical sizes. -/
theorem shrink_to_fit_replaces_all_oversized (factory : Factory)
    (p : VulkanSurfacePool) :
    ((ShrinkToFit factory p).available_surfaces_ =
        p.available_surfaces_.filter (fun s => !s.oversized) ++
          recreatedSurfaces factory
            ((p.available_surfaces_.filter (fun s => s.oversized)).map
              (fun s => s.size))
            p.buffer_id_)
  ∧ ((∀ sz id s, factory sz id = some s → s.valid = true ∧ s.size = sz) →
      (∀ sz id, factory sz id ≠ none) →
        (ShrinkToFit factory p).available_surfaces_.length =
            p.available_surfaces_.length ∧
          ((ShrinkToFit factory p).available_surfaces_.map (fun s => s.size)).Perm
            (p.available_surfaces_.map (fun s => s.size))) := by
  refine ⟨ShrinkToFit_available factory p, fun hfac hne => ?_⟩
  have hsz := recreatedSurfaces_map_size factory hfac hne
    ((p.available_surfaces_.filter (fun s => s.oversized)).map (fun s => s.size))
    p.buffer_id_
  have hlen : (recreatedSurfaces factory
      ((p.available_surfaces_.filter (fun s => s.oversized)).map (fun s => s.size))
      p.buffer_id_).length =
      (p.available_surfaces_.filter (fun s => s.oversized)).length := by
    have := congrArg List.length hsz
    simpa using this
  have hpart : (p.available_surfaces_.filter (fun s => s.oversized)).length +
      (p.available_surfaces_.filter (fun s => !s.oversized)).length =
      p.available_surfaces_.length := by
    simpa using
      length_filter_add_length_filter_not (fun s : VulkanSurface => s.oversized)
        p.available_surfaces_
  constructor
  · rw [ShrinkToFit_available, List.length_append, hlen]
    omega
  · rw [ShrinkToFit_available, List.map_append, hsz, ← List.map_append]
    exact (filter_not_append_filter_perm (fun s => s.oversized)
      p.available_surfaces_).map (fun s => s.size)

theorem shrink_to_fit_replaces_all_oversized_witness :
    (ShrinkToFit testFactory wAgePool).available_surfaces_.length =
        wAgePool.available_surfaces_.length ∧
      ((ShrinkToFit testFactory wAgePool).available_surfaces_.map
          (fun s => s.size)).Perm
        (wAgePool.available_surfaces_.map (fun s => s.size)) :=
  (shrink_to_fit_replaces_all_oversized testFactory wAgePool).2 testFactory_spec
    testFactory_ne_none
